import Mathlib

/-!
Verification development for a UDP telemetry system: sensor clients with
acknowledged delivery, retry with exponential backoff, a persisted offline
queue with rolling rewrite, adaptive pacing, and a collection server with
per-device duplicate suppression plus range and differential alerting.

The client model follows `sendWithQoS`, `transmitStoredData` and the adaptive
throttling block of `cli.c` / `cli_esp.c` / `cli_pico.c`; the server model
follows the receive-loop body, `find_device_by_id` and `add_or_get_device`
of `srv.c`.  Doubles are modelled as rationals, C strings as Lean strings
(with explicit `strncpy`-style truncation where the source truncates).
Network addresses and wall-clock timestamps carried by the C structs are not
modelled: they do not affect any control-flow decision in the modelled code.
-/

/-! ### Delivery client: `sendWithQoS` (cli.c lines 90-153, identical in
cli_esp.c / cli_pico.c).

The acknowledgement oracle `ackOk k` abstracts `waitForAck` on the k-th
transmission (0-based).  `budget` counts down where the source counts
`retry_count` up: `budget = MAX_RETRIES - retry_count`, so the source guard
`retry_count + 1 >= MAX_RETRIES` is `budget <= 1`. -/

def MAX_RETRIES : Nat := 5

def INITIAL_BACKOFF_MS : Nat := 200

inductive DeliveryOutcome where
  | delivered
  | dropped
deriving DecidableEq

/-- Trace of one `sendWithQoS` call: final outcome, number of UDP
transmissions performed, and the list of backoff waits performed (in order). -/
structure SendTrace where
  outcome : DeliveryOutcome
  sends : Nat
  waits : List Nat
deriving DecidableEq

/-- The do-while loop of `sendWithQoS`: transmit, then (for `qos_level = 1`)
wait for the ACK; on failure increment the retry count, give up once it
reaches `MAX_RETRIES`, otherwise sleep `backoff`, double it and cap at
5000 ms.  For `qos_level ≠ 1` the iteration reports instant delivery. -/
def sendLoop (ackOk : Nat → Bool) (qos_level : Nat) :
    Nat → Nat → Nat → List Nat → SendTrace
  | budget, backoff, sends, waits =>
    if qos_level = 1 then
      if ackOk sends then ⟨.delivered, sends + 1, waits⟩
      else
        match budget with
        | 0 => ⟨.dropped, sends + 1, waits⟩
        | 1 => ⟨.dropped, sends + 1, waits⟩
        | b + 2 =>
          sendLoop ackOk qos_level (b + 1) (min (backoff * 2) 5000) (sends + 1)
            (waits ++ [backoff])
    else ⟨.delivered, sends + 1, waits⟩

/-- `sendWithQoS`: fails fast when the transport is down, otherwise runs the
send/ack/retry loop.  The source fixes the local `qos_level` to 1
("Always assume 1 for this function"), regardless of the record's qos field. -/
def sendWithQoS (wifiConnected : Bool) (ackOk : Nat → Bool) : SendTrace :=
  let qos_level : Nat := 1
  if wifiConnected then
    sendLoop ackOk qos_level MAX_RETRIES INITIAL_BACKOFF_MS 0 []
  else ⟨.dropped, 0, []⟩

/-! ### Pacing controller (adaptive throttling block of
cli_esp.c lines 256-293 / cli_pico.c lines 264-293). -/

def BASE_DELAY_MS : Nat := 5000

def MAX_DELAY_MS : Nat := 60000

def THROTTLING_THRESHOLD : Nat := 10

def THROTTLING_FACTOR : Nat := 2000

/-- Next generation interval as a function of the backlog count: above the
threshold, base plus a per-excess-packet penalty, capped at `MAX_DELAY_MS`;
otherwise the base delay. -/
def nextInterval (backlogCount : Nat) : Nat :=
  if THROTTLING_THRESHOLD < backlogCount then
    min (BASE_DELAY_MS + (backlogCount - THROTTLING_THRESHOLD) * THROTTLING_FACTOR)
      MAX_DELAY_MS
  else BASE_DELAY_MS

/-! ### Offline queue: `transmitStoredData` (cli.c lines 185-279, with the
same drain/rewrite structure in cli_esp.c lines 197-324 and cli_pico.c
lines 204-332).

Storage is `Option (List String)`: `none` means no log file exists, `some
lines` a file with those lines.  The JSON parser (`deserializeJson`) and the
delivery attempt (`sendWithQoS` applied to the stored line) are abstracted
as the boolean oracles `parseOk` and `deliver` on the trimmed line, exactly
as the spec abstracts `drainAndReplay(deliverFn)`. -/

/-- Arduino `String::trim()`: strip leading and trailing whitespace. -/
def trimLine (s : String) : String :=
  String.mk (((s.data.dropWhile Char.isWhitespace).reverse.dropWhile
    Char.isWhitespace).reverse)

/-- The per-line drain loop: blank lines are skipped silently, parse failures
are skipped with no `count` increment, parsed lines are attempted and
partitioned; returns (`count` of attempted entries, failed entries in file
order). -/
def drainEntries (parseOk deliver : String → Bool) : List String → Nat × List String
  | [] => (0, [])
  | line :: rest =>
    let l := trimLine line
    if l.length = 0 then drainEntries parseOk deliver rest
    else if parseOk l then
      let r := drainEntries parseOk deliver rest
      if deliver l then (r.1 + 1, r.2) else (r.1 + 1, l :: r.2)
    else drainEntries parseOk deliver rest

/-- `transmitStoredData`: missing file returns immediately; otherwise drain
every line, and only when at least one entry was attempted (`count > 0`)
rewrite the storage — removing the file when nothing failed, else rewriting
it with exactly the failed entries. -/
def transmitStoredData (parseOk deliver : String → Bool)
    (storage : Option (List String)) : Option (List String) :=
  match storage with
  | none => none
  | some lines =>
    let r := drainEntries parseOk deliver lines
    if 0 < r.1 then
      if r.2 = [] then none
      else some r.2
    else some lines

/-! ### Server: device registry and receive-loop body (srv.c).

`device_t` is modelled without its `addr` and `last_seen` fields (network
address and wall-clock time; neither influences any modelled decision).
The `char id[128]` field together with `strncpy(d->id, id, 127)` is modelled
by explicit truncation to 127 characters. -/

def MAX_DEVICES : Nat := 1024

def TEMP_MIN : ℚ := 0
def TEMP_MAX : ℚ := 50
def HUM_MIN : ℚ := 20
def HUM_MAX : ℚ := 80
def TEMP_DIFF_THRESHOLD : ℚ := 2
def HUM_DIFF_THRESHOLD : ℚ := 5

/-- `strncpy` into a fixed 128-byte buffer keeps at most 127 characters. -/
def takeChars (s : String) (n : Nat) : String := String.mk (s.data.take n)

structure Device where
  id : String
  temperature : ℚ
  humidity : ℚ
  dateObserved : String
  has_seq : Bool
  last_seq : Int
deriving DecidableEq

/-- `find_device_by_id`: index of the first registry entry whose stored id
equals the given id (srv.c lines 144-152). -/
def find_device_by_id : List Device → String → Option Nat
  | [], _ => none
  | d :: rest, id =>
    if d.id = id then some 0
    else (find_device_by_id rest id).map (· + 1)

/-- Freshly initialised `device_t` (srv.c lines 183-192). -/
def blankDevice (id : String) : Device :=
  { id := takeChars id 127, temperature := 0, humidity := 0, dateObserved := ""
    has_seq := false, last_seq := -1 }

/-- `add_or_get_device` (srv.c lines 167-194): return the index of an
existing entry, or append a fresh one when capacity remains; `none` when the
registry is full.  (The source also refreshes `addr`/`last_seen` on the
existing-entry path; those fields are not modelled.) -/
def add_or_get_device (devs : List Device) (id : String) :
    Option (List Device × Nat) :=
  match find_device_by_id devs id with
  | some i => some (devs, i)
  | none =>
    if MAX_DEVICES ≤ devs.length then none
    else some (devs ++ [blankDevice id], devs.length)

/-- Parsed inbound datagram after cJSON field extraction: each field is
`none` when absent or of the wrong JSON type. -/
structure Msg where
  id : Option String
  temperature : Option ℚ
  relativeHumidity : Option ℚ
  dateObserved : Option String
  seq : Option Int
  qos : Option Int
deriving DecidableEq

inductive Alert where
  | tempRange (dev : String) (value : ℚ)
  | humRange (dev : String) (value : ℚ)
  | differential (dev other : String) (tempDelta humDelta : ℚ)
deriving DecidableEq

inductive Outcome where
  | invalid
  | registryFull
  | missingSeq
  | duplicate
  | accepted
deriving DecidableEq

/-- Result of processing one datagram: new registry, `send_ack` calls, the
number of store-reading blocks executed, the number of times the alerting
section ran, the alerts emitted (in emission order), and the branch taken. -/
structure StepResult where
  devices : List Device
  acks : List (String × Int)
  storeCount : Nat
  alertEvals : Nat
  alerts : List Alert
  outcome : Outcome
deriving DecidableEq

/-- Range validation (srv.c lines 429-439): one alert per violated metric,
temperature first. -/
def rangeAlerts (id : String) (temp hum : ℚ) : List Alert :=
  (if temp < TEMP_MIN ∨ TEMP_MAX < temp then [Alert.tempRange id temp] else []) ++
  (if hum < HUM_MIN ∨ HUM_MAX < hum then [Alert.humRange id hum] else [])

/-- C's `fabs` on the rational model of doubles. -/
def fabs (x : ℚ) : ℚ := if x < 0 then -x else x

theorem fabs_eq_abs (x : ℚ) : fabs x = |x| := by
  unfold fabs
  split
  · exact (abs_of_neg (by assumption)).symm
  · exact (abs_of_nonneg (le_of_not_lt (by assumption))).symm

/-- Differential check (srv.c lines 441-459): walk the whole registry, skip
entries whose stored id equals the accepting device's stored id, and emit
one alert per other entry when either absolute delta meets its threshold. -/
def differentialAlerts (devs : List Device) (dev : Device) : List Alert :=
  devs.filterMap (fun other =>
    if other.id = dev.id then none
    else
      let tempDiff := fabs (dev.temperature - other.temperature)
      let humDiff := fabs (dev.humidity - other.humidity)
      if TEMP_DIFF_THRESHOLD ≤ tempDiff ∨ HUM_DIFF_THRESHOLD ≤ humDiff then
        some (Alert.differential dev.id other.id tempDiff humDiff)
      else none)

/-- `seq` extraction (srv.c lines 361-371): `-1` unless a numeric `seq`
field with a non-negative value is present. -/
def extractSeq : Option Int → Int
  | some v => if 0 ≤ v then v else -1
  | none => -1

/-- The store-reading block (srv.c lines 410-414): overwrite temperature,
humidity and dateObserved (`strncpy` into a 64-byte buffer keeps at most
63 characters). -/
def storeReading (dev : Device) (temp hum : ℚ) (date : String) : Device :=
  { dev with temperature := temp, humidity := hum,
             dateObserved := takeChars date 63 }

/-- The QoS-1 sequence update (srv.c lines 416-419). -/
def applySeq (dev : Device) (qos seq : Int) : Device :=
  if qos = 1 then { dev with has_seq := true, last_seq := seq } else dev

/-- ACK emission on acceptance (srv.c line 421): only for qos = 1. -/
def ackList (id : String) (qos seq : Int) : List (String × Int) :=
  if qos = 1 then [(id, seq)] else []

/-- The accepted branch of the receive loop (srv.c lines 409-459): store the
reading over the resolved registry entry, for qos = 1 record the sequence
and emit an ACK, then run range validation and the differential sweep. -/
def acceptedResult (devs1 : List Device) (i : Nat) (id : String)
    (temp hum : ℚ) (date : String) (qos seq : Int) : StepResult :=
  let dev := devs1.getD i (blankDevice id)
  let st2 := applySeq (storeReading dev temp hum date) qos seq
  ⟨devs1.set i st2, ackList id qos seq, 1, 1,
    rangeAlerts id temp hum ++ differentialAlerts (devs1.set i st2) st2,
    .accepted⟩

/-- Body of the server receive loop after JSON parsing (srv.c lines 339-461):
mandatory-field validation, `seq`/`qos` extraction, registry resolution, the
QoS-1 missing-seq and duplicate checks, the store-reading block, ACK
emission, and the two alerting sections. -/
def processPacket (devs : List Device) (m : Msg) : StepResult :=
  match m.id, m.temperature, m.relativeHumidity with
  | some id, some temp, some hum =>
    let seq : Int := extractSeq m.seq
    let qos : Int := m.qos.getD 0
    match add_or_get_device devs id with
    | none => ⟨devs, [], 0, 0, [], .registryFull⟩
    | some (devs1, i) =>
      let dev := devs1.getD i (blankDevice id)
      if qos = 1 ∧ seq = -1 then ⟨devs1, [], 0, 0, [], .missingSeq⟩
      else if qos = 1 ∧ dev.has_seq = true ∧ seq = dev.last_seq then
        ⟨devs1, [(id, seq)], 0, 0, [], .duplicate⟩
      else acceptedResult devs1 i id temp hum (m.dateObserved.getD "") qos seq
  | _, _, _ => ⟨devs, [], 0, 0, [], .invalid⟩

/-! ### Helper lemmas about the registry -/

theorem takeChars_of_length_le (s : String) (n : Nat) (h : s.length ≤ n) :
    takeChars s n = s := by
  have : s.data.length ≤ n := h
  simp [takeChars, List.take_of_length_le this]

theorem find_lt_length {devs : List Device} {id : String} {i : Nat}
    (h : find_device_by_id devs id = some i) : i < devs.length := by
  induction devs generalizing i with
  | nil => simp [find_device_by_id] at h
  | cons d rest ih =>
    by_cases hd : d.id = id
    · simp [find_device_by_id, hd] at h
      subst h
      simp
    · simp only [find_device_by_id, hd, if_false] at h
      cases hr : find_device_by_id rest id with
      | none => simp [hr] at h
      | some j =>
        simp [hr] at h
        have := ih hr
        simp [← h, List.length_cons]
        omega

theorem find_id_eq {devs : List Device} {id : String} {i : Nat} (d0 : Device)
    (h : find_device_by_id devs id = some i) :
    (devs.getD i d0).id = id := by
  induction devs generalizing i with
  | nil => simp [find_device_by_id] at h
  | cons d rest ih =>
    by_cases hd : d.id = id
    · simp [find_device_by_id, hd] at h
      simp [← h, hd]
    · simp only [find_device_by_id, hd, if_false] at h
      cases hr : find_device_by_id rest id with
      | none => simp [hr] at h
      | some j =>
        simp [hr] at h
        subst h
        simpa using ih hr

theorem find_set {devs : List Device} {id : String} {i : Nat} {d : Device}
    (h : find_device_by_id devs id = some i) (hd : d.id = id) :
    find_device_by_id (devs.set i d) id = some i := by
  induction devs generalizing i with
  | nil => simp [find_device_by_id] at h
  | cons d1 rest ih =>
    by_cases h1 : d1.id = id
    · simp [find_device_by_id, h1] at h
      subst h
      simp [List.set, find_device_by_id, hd]
    · simp only [find_device_by_id, h1, if_false] at h
      cases hr : find_device_by_id rest id with
      | none => simp [hr] at h
      | some j =>
        simp [hr] at h
        subst h
        simp [List.set, find_device_by_id, h1, ih hr]

theorem find_append_none {devs : List Device} {id : String} {d : Device}
    (h : find_device_by_id devs id = none) (hd : d.id = id) :
    find_device_by_id (devs ++ [d]) id = some devs.length := by
  induction devs with
  | nil => simp [find_device_by_id, hd]
  | cons d1 rest ih =>
    by_cases h1 : d1.id = id
    · simp [find_device_by_id, h1] at h
    · simp only [find_device_by_id, h1, if_false] at h
      cases hr : find_device_by_id rest id with
      | some j => simp [hr] at h
      | none =>
        simp [List.cons_append, find_device_by_id, h1, ih hr]

theorem getD_set_self {devs : List Device} {i : Nat} (d d0 : Device)
    (h : i < devs.length) : (devs.set i d).getD i d0 = d := by
  induction devs generalizing i with
  | nil => simp at h
  | cons d1 rest ih =>
    cases i with
    | zero => simp [List.set]
    | succ j =>
      simp only [List.set, List.getD_cons_succ]
      exact ih (by simpa using h)

theorem getD_append_length (devs : List Device) (d d0 : Device) :
    (devs ++ [d]).getD devs.length d0 = d := by
  induction devs with
  | nil => simp
  | cons d1 rest ih => simp [ih]

theorem set_append_length (devs : List Device) (d d2 : Device) :
    (devs ++ [d]).set devs.length d2 = devs ++ [d2] := by
  induction devs with
  | nil => simp [List.set]
  | cons d1 rest ih => simp [List.cons_append, List.set, ih]

theorem add_or_get_lt {devs devs1 : List Device} {id : String} {i : Nat}
    (h : add_or_get_device devs id = some (devs1, i)) : i < devs1.length := by
  unfold add_or_get_device at h
  cases hf : find_device_by_id devs id with
  | some j =>
    simp [hf] at h
    obtain ⟨h1, h2⟩ := h
    subst h1; subst h2
    exact find_lt_length hf
  | none =>
    simp only [hf] at h
    split at h
    · simp at h
    · simp at h
      obtain ⟨h1, h2⟩ := h
      subst h1; subst h2
      simp

theorem add_or_get_stored_id {devs devs1 : List Device} {id : String} {i : Nat}
    (d0 : Device) (h : add_or_get_device devs id = some (devs1, i))
    (hlen : takeChars id 127 = id) :
    (devs1.getD i d0).id = id := by
  unfold add_or_get_device at h
  cases hf : find_device_by_id devs id with
  | some j =>
    simp [hf] at h
    obtain ⟨h1, h2⟩ := h
    subst h1; subst h2
    exact find_id_eq d0 hf
  | none =>
    simp only [hf] at h
    split at h
    · simp at h
    · simp at h
      obtain ⟨h1, h2⟩ := h
      subst h1; subst h2
      simpa [getD_append_length, blankDevice] using hlen

theorem find_after_add {devs devs1 : List Device} {id : String} {i : Nat}
    {d : Device} (h : add_or_get_device devs id = some (devs1, i))
    (hd : d.id = id) :
    find_device_by_id (devs1.set i d) id = some i := by
  unfold add_or_get_device at h
  cases hf : find_device_by_id devs id with
  | some j =>
    simp [hf] at h
    obtain ⟨h1, h2⟩ := h
    subst h1; subst h2
    exact find_set hf hd
  | none =>
    simp only [hf] at h
    split at h
    · simp at h
    · simp at h
      obtain ⟨h1, h2⟩ := h
      subst h1; subst h2
      rw [set_append_length]
      exact find_append_none hf hd

/-- Inversion of an accepted packet: the result is exactly the accepted
branch of `processPacket`, and neither discard condition held. -/
theorem processPacket_accepted_inv (devs : List Device) (m : Msg)
    (id : String) (t h : ℚ)
    (hid : m.id = some id) (ht : m.temperature = some t)
    (hh : m.relativeHumidity = some h)
    (hacc : (processPacket devs m).outcome = .accepted) :
    ∃ devs1 i, add_or_get_device devs id = some (devs1, i) ∧ i < devs1.length ∧
      processPacket devs m =
        acceptedResult devs1 i id t h (m.dateObserved.getD "")
          (m.qos.getD 0) (extractSeq m.seq) ∧
      ¬(m.qos.getD 0 = 1 ∧ extractSeq m.seq = -1) ∧
      ¬(m.qos.getD 0 = 1 ∧ (devs1.getD i (blankDevice id)).has_seq = true ∧
          extractSeq m.seq = (devs1.getD i (blankDevice id)).last_seq) := by
  simp only [processPacket, hid, ht, hh] at hacc ⊢
  cases hao : add_or_get_device devs id with
  | none => simp [hao] at hacc
  | some p =>
    obtain ⟨devs1, i⟩ := p
    refine ⟨devs1, i, rfl, add_or_get_lt hao, ?_⟩
    simp only [hao] at hacc ⊢
    split at hacc
    · simp at hacc
    · rename_i hc1
      split at hacc
      · simp at hacc
      · rename_i hc2
        exact ⟨by rw [if_neg hc1, if_neg hc2], hc1, hc2⟩

/-! ### Helper lemmas about the queue drain -/

theorem drainEntries_all_parsed (parseOk deliver : String → Bool)
    (lines : List String)
    (hall : ∀ l ∈ lines, (trimLine l).length ≠ 0 ∧ parseOk (trimLine l) = true) :
    drainEntries parseOk deliver lines =
      (lines.length, (lines.map trimLine).filter (fun l => ! deliver l)) := by
  induction lines with
  | nil => simp [drainEntries]
  | cons line rest ih =>
    obtain ⟨hne, hp⟩ := hall line (by simp)
    have hrest := ih (fun l hl => hall l (by simp [hl]))
    simp only [drainEntries, if_neg hne, hp, if_true, hrest, List.map_cons,
      List.filter_cons]
    cases hdel : deliver (trimLine line) <;> simp [List.length_cons]

theorem drainEntries_failed_spec (parseOk deliver : String → Bool)
    (lines : List String) :
    ∀ e ∈ (drainEntries parseOk deliver lines).2,
      parseOk e = true ∧ deliver e = false := by
  induction lines with
  | nil => simp [drainEntries]
  | cons line rest ih =>
    intro e he
    simp only [drainEntries] at he
    split at he
    · exact ih e he
    · split at he
      · rename_i hlen0 hp
        split at he
        · exact ih e he
        · rename_i hdel
          rcases List.mem_cons.mp he with h1 | h1
          · subst h1
            simp only [Bool.not_eq_true] at hdel
            exact ⟨hp, hdel⟩
          · exact ih e h1
      · exact ih e he

theorem drainEntries_count_pos (parseOk deliver : String → Bool)
    (lines : List String)
    (hx : ∃ l ∈ lines, (trimLine l).length ≠ 0 ∧ parseOk (trimLine l) = true) :
    0 < (drainEntries parseOk deliver lines).1 := by
  induction lines with
  | nil => simp at hx
  | cons line rest ih =>
    simp only [drainEntries]
    by_cases h0 : (trimLine line).length = 0
    · rw [if_pos h0]
      apply ih
      rcases hx with ⟨l, hl, hprop⟩
      rcases List.mem_cons.mp hl with h1 | h1
      · subst h1
        exact absurd h0 hprop.1
      · exact ⟨l, h1, hprop⟩
    · rw [if_neg h0]
      by_cases hp : parseOk (trimLine line) = true
      · simp only [hp, if_true]
        split <;> simp
      · simp only [hp]
        simp only [Bool.false_eq_true, if_false]
        apply ih
        rcases hx with ⟨l, hl, hprop⟩
        rcases List.mem_cons.mp hl with h1 | h1
        · subst h1
          exact absurd hprop.2 hp
        · exact ⟨l, h1, hprop⟩

/-! ### Claim theorems -/

/-- C2 counterexample: with every acknowledgement lost, the record is
Dropped after five transmissions having performed only the four waits
200, 400, 800, 1600 ms — the claimed fifth wait of 3200 ms and the capped
5000 ms waits never occur, because after the fifth unacknowledged
transmission `retry_count >= MAX_RETRIES` returns immediately. -/
theorem backoff_waits_cex :
    (sendWithQoS true (fun _ => false)).waits = [200, 400, 800, 1600] ∧
    (sendWithQoS true (fun _ => false)).outcome = .dropped ∧
    (sendWithQoS true (fun _ => false)).sends = 5 ∧
    3200 ∉ (sendWithQoS true (fun _ => false)).waits ∧
    5000 ∉ (sendWithQoS true (fun _ => false)).waits := by
  decide

/-- C2 (amended): for a qos=1 record that never receives a matching Ack,
each wait that is performed before retry attempt n+1 equals
min(initial * 2^n, cap), but exactly maxRetries - 1 = 4 such waits occur
(200, 400, 800, 1600 ms); the record then ends Dropped after its fifth
transmission, without the 3200 ms or capped 5000 ms waits. -/
theorem backoff_waits_exact (ackOk : Nat → Bool)
    (hfail : ∀ k, k < MAX_RETRIES → ackOk k = false) :
    sendWithQoS true ackOk =
      ⟨.dropped, MAX_RETRIES,
        [min (INITIAL_BACKOFF_MS * 2 ^ 0) 5000,
         min (INITIAL_BACKOFF_MS * 2 ^ 1) 5000,
         min (INITIAL_BACKOFF_MS * 2 ^ 2) 5000,
         min (INITIAL_BACKOFF_MS * 2 ^ 3) 5000]⟩ := by
  have h0 := hfail 0 (by decide)
  have h1 := hfail 1 (by decide)
  have h2 := hfail 2 (by decide)
  have h3 := hfail 3 (by decide)
  have h4 := hfail 4 (by decide)
  simp [sendWithQoS, sendLoop, MAX_RETRIES, INITIAL_BACKOFF_MS,
    h0, h1, h2, h3, h4]

/-- C2 witness: the amended backoff statement at the concrete
all-acknowledgements-lost oracle. -/
theorem backoff_waits_exact_witness :
    sendWithQoS true (fun _ => false) =
      ⟨.dropped, MAX_RETRIES,
        [min (INITIAL_BACKOFF_MS * 2 ^ 0) 5000,
         min (INITIAL_BACKOFF_MS * 2 ^ 1) 5000,
         min (INITIAL_BACKOFF_MS * 2 ^ 2) 5000,
         min (INITIAL_BACKOFF_MS * 2 ^ 3) 5000]⟩ :=
  backoff_waits_exact (fun _ => false) (fun _ _ => rfl)

/-- C4 counterexample: `sendWithQoS` never consults the record's qos field
(its internal `qos_level` is fixed to 1), so sending a qos=0 record while
every acknowledgement is lost is not "transmitted exactly once and
Delivered unconditionally": it is transmitted five times and Dropped. -/
theorem qos0_still_retried_cex :
    (sendWithQoS true (fun _ => false)).outcome ≠ .delivered ∧
    (sendWithQoS true (fun _ => false)).sends ≠ 1 := by
  decide

/-- C4 (amended): as shipped, `sendWithQoS` applies the qos=1
acknowledgement/retry path to every record (its local `qos_level` is the
constant 1); the qos=0 branch of the loop is unreachable, and only under
that branch (`qos_level = 0`) would a record be transmitted exactly once
and reported Delivered unconditionally, with no waits. -/
theorem qos_level_zero_branch_delivers_once (ackOk : Nat → Bool) :
    sendLoop ackOk 0 MAX_RETRIES INITIAL_BACKOFF_MS 0 [] =
      ⟨.delivered, 1, []⟩ ∧
    sendWithQoS true ackOk = sendLoop ackOk 1 MAX_RETRIES INITIAL_BACKOFF_MS 0 [] := by
  constructor
  · simp [sendLoop]
  · simp [sendWithQoS]

/-- C4 witness: the amended statement at a concrete oracle. -/
theorem qos_level_zero_branch_witness :
    sendLoop (fun _ => false) 0 MAX_RETRIES INITIAL_BACKOFF_MS 0 [] =
      ⟨.delivered, 1, []⟩ :=
  (qos_level_zero_branch_delivers_once (fun _ => false)).1

/-- C7: the pacing controller returns the base interval below the backlog
threshold (and at zero backlog), and base + (backlog - threshold) * penalty
capped at the maximum above it; at backlog = threshold + 3 with the 2000 ms
penalty this is base + 6000 ms. -/
theorem pacing_interval (b : Nat) :
    (b < THROTTLING_THRESHOLD → nextInterval b = BASE_DELAY_MS) ∧
    (THROTTLING_THRESHOLD < b →
      nextInterval b =
        min (BASE_DELAY_MS + (b - THROTTLING_THRESHOLD) * THROTTLING_FACTOR)
          MAX_DELAY_MS) ∧
    nextInterval 0 = BASE_DELAY_MS ∧
    nextInterval (THROTTLING_THRESHOLD + 3) = BASE_DELAY_MS + 3 * THROTTLING_FACTOR := by
  refine ⟨?_, ?_, by decide, by decide⟩
  · intro hb
    unfold nextInterval
    rw [if_neg (by omega)]
  · intro hb
    unfold nextInterval
    rw [if_pos hb]

/-- C7 witness: the pacing statement applied at backlogs 0 and 13. -/
theorem pacing_interval_witness :
    nextInterval 0 = BASE_DELAY_MS ∧
    nextInterval 13 =
      min (BASE_DELAY_MS + (13 - THROTTLING_THRESHOLD) * THROTTLING_FACTOR)
        MAX_DELAY_MS :=
  ⟨(pacing_interval 0).1 (by decide), (pacing_interval 13).2.1 (by decide)⟩

/-- C3: draining a non-empty queue whose entries all parse leaves exactly
the failed entries, in their original relative order, and removes the
storage file entirely when none failed. -/
theorem queue_rolling_window (parseOk deliver : String → Bool)
    (lines : List String) (hne : lines ≠ [])
    (hall : ∀ l ∈ lines, (trimLine l).length ≠ 0 ∧ parseOk (trimLine l) = true) :
    transmitStoredData parseOk deliver (some lines) =
      (if (lines.map trimLine).filter (fun l => ! deliver l) = [] then none
       else some ((lines.map trimLine).filter (fun l => ! deliver l))) := by
  have hd := drainEntries_all_parsed parseOk deliver lines hall
  have hlen : 0 < lines.length := List.length_pos.mpr hne
  simp only [transmitStoredData, hd]
  rw [if_pos hlen]

/-- C3 witness: a two-entry queue where exactly the second entry fails
replay keeps exactly that entry. -/
theorem queue_rolling_window_witness :
    (["a", "b"] : List String) ≠ [] ∧
    transmitStoredData (fun _ => true) (fun s => s == "a") (some ["a", "b"]) =
      (if (["a", "b"].map trimLine).filter (fun l => ! (l == "a")) = [] then none
       else some ((["a", "b"].map trimLine).filter (fun l => ! (l == "a")))) :=
  ⟨by decide,
   queue_rolling_window (fun _ => true) (fun s => s == "a") ["a", "b"]
     (by decide) (by decide)⟩

/-- C8 counterexample: a queue whose single entry fails to parse is left
completely untouched — the malformed entry is still present in storage
after the drain pass, because `count = 0` skips the rewrite block. -/
theorem malformed_only_queue_kept_cex :
    transmitStoredData (fun _ => false) (fun _ => true) (some ["garbage"]) =
      some ["garbage"] := by
  decide

/-- C8 (amended): a stored entry that fails to parse is skipped and dropped
from the rewritten queue provided at least one entry of the same drain pass
parses successfully (so that `count > 0` triggers the rewrite); the
rewritten storage then contains only parseable entries that failed
delivery.  When no entry parses, the file is left unchanged and malformed
entries remain. -/
theorem malformed_dropped_when_any_parses (parseOk deliver : String → Bool)
    (lines s : List String)
    (hx : ∃ l ∈ lines, (trimLine l).length ≠ 0 ∧ parseOk (trimLine l) = true)
    (hs : transmitStoredData parseOk deliver (some lines) = some s) :
    ∀ e ∈ s, parseOk e = true ∧ deliver e = false := by
  have hc := drainEntries_count_pos parseOk deliver lines hx
  simp only [transmitStoredData] at hs
  rw [if_pos hc] at hs
  split at hs
  · exact absurd hs (by simp)
  · have : (drainEntries parseOk deliver lines).2 = s := by
      exact Option.some.inj hs
    subst this
    exact drainEntries_failed_spec parseOk deliver lines

/-- C8 witness: the amended statement on a queue holding one malformed and
one parseable-but-undeliverable entry; the rewritten storage is exactly the
parseable entry. -/
theorem malformed_dropped_witness :
    transmitStoredData (fun s => !(s == "garbage")) (fun _ => false)
        (some ["garbage", "ok"]) = some ["ok"] ∧
    (∀ e ∈ (["ok"] : List String),
      (fun s => !(s == "garbage")) e = true ∧ (fun _ => false) e = false) :=
  ⟨by decide,
   malformed_dropped_when_any_parses (fun s => !(s == "garbage")) (fun _ => false)
     ["garbage", "ok"] ["ok"] (by decide) (by decide)⟩

/-- C9 counterexample: a qos=1 record with no `seq` field is discarded by
the Reception Protocol, yet processing it from a fresh device id creates a
registry entry (with zeroed readings), because `add_or_get_device` runs
before the missing-seq check. -/
theorem discarded_record_creates_entry_cex :
    (processPacket [] ⟨some "A", some 25, some 50, none, none, some 1⟩).outcome =
      .missingSeq ∧
    (processPacket [] ⟨some "A", some 25, some 50, none, none, some 1⟩).devices =
      [blankDevice "A"] ∧
    (processPacket [] ⟨some "A", some 25, some 50, none, none, some 1⟩).devices ≠
      ([] : List Device) := by
  decide

/-- C9 (amended): a registry entry is created when the first record passing
mandatory-field validation from a new id is processed — including a qos=1
record missing its sequence field, which is discarded only after the blank
entry (zero readings, no sequence) has been appended; for an already-known
id such a discarded record mutates nothing, and no ACK, store or alert
evaluation happens either way. -/
theorem registry_entry_creation (devs : List Device) (m : Msg) (id : String)
    (t h : ℚ)
    (hid : m.id = some id) (ht : m.temperature = some t)
    (hh : m.relativeHumidity = some h) (hq : m.qos = some 1)
    (hseq : m.seq = none) :
    (find_device_by_id devs id = none → devs.length < MAX_DEVICES →
      processPacket devs m =
        ⟨devs ++ [blankDevice id], [], 0, 0, [], .missingSeq⟩) ∧
    (∀ i, find_device_by_id devs id = some i →
      processPacket devs m = ⟨devs, [], 0, 0, [], .missingSeq⟩) := by
  constructor
  · intro hf hcap
    simp only [processPacket, hid, ht, hh, hq, hseq, extractSeq,
      add_or_get_device, hf]
    rw [if_neg (by omega)]
    simp
  · intro i hf
    simp only [processPacket, hid, ht, hh, hq, hseq, extractSeq,
      add_or_get_device, hf]
    simp

/-- C9 witness: the amended creation statement at a concrete fresh id. -/
theorem registry_entry_creation_witness :
    processPacket [] ⟨some "A", some 25, some 50, none, none, some 1⟩ =
      ⟨[blankDevice "A"], [], 0, 0, [], .missingSeq⟩ :=
  (registry_entry_creation [] ⟨some "A", some 25, some 50, none, none, some 1⟩
    "A" 25 50 rfl rfl rfl rfl rfl).1 (by decide) (by decide)

/-- C10: acceptance of a qos=1 record is pure inequality with the stored
sequence: whenever the resolved device has `hasSequence` unset or its
`lastSequence` differs from the record's sequence s (including s strictly
smaller), the record is accepted — the readings overwrite the stored state,
`lastSequence` becomes s, one ACK is emitted and the alert engine runs. -/
theorem acceptance_pure_inequality (devs : List Device) (m : Msg)
    (id : String) (t h : ℚ) (s : Int) (i : Nat)
    (hid : m.id = some id) (ht : m.temperature = some t)
    (hh : m.relativeHumidity = some h) (hq : m.qos = some 1)
    (hs : m.seq = some s) (hs0 : 0 ≤ s)
    (hf : find_device_by_id devs id = some i)
    (hne : (devs.getD i (blankDevice id)).has_seq = false ∨
      s ≠ (devs.getD i (blankDevice id)).last_seq) :
    processPacket devs m =
      acceptedResult devs i id t h (m.dateObserved.getD "") 1 s ∧
    (acceptedResult devs i id t h (m.dateObserved.getD "") 1 s).devices =
      devs.set i
        { devs.getD i (blankDevice id) with
            temperature := t, humidity := h,
            dateObserved := takeChars (m.dateObserved.getD "") 63,
            has_seq := true, last_seq := s } ∧
    (acceptedResult devs i id t h (m.dateObserved.getD "") 1 s).acks = [(id, s)] ∧
    (acceptedResult devs i id t h (m.dateObserved.getD "") 1 s).storeCount = 1 ∧
    (acceptedResult devs i id t h (m.dateObserved.getD "") 1 s).alertEvals = 1 := by
  refine ⟨?_, ?_, ?_, rfl, rfl⟩
  · simp only [processPacket, hid, ht, hh, hq, hs, extractSeq,
      add_or_get_device, hf, Option.getD_some]
    rw [if_pos hs0]
    rw [if_neg (by omega)]
    rw [if_neg ?_]
    rintro ⟨-, hhs, hls⟩
    rcases hne with h1 | h1
    · rw [h1] at hhs
      exact Bool.false_ne_true hhs
    · exact h1 hls
  · simp [acceptedResult, applySeq, storeReading]
  · simp [acceptedResult, ackList]

/-- C10 witness: a device whose last accepted sequence is 5 accepts a
replayed record with the strictly smaller sequence 1, overwriting state and
setting `lastSequence` back to 1. -/
theorem acceptance_pure_inequality_witness :
    processPacket [⟨"A", 1, 2, "", true, 5⟩]
        ⟨some "A", some 30, some 40, none, some 1, some 1⟩ =
      acceptedResult [⟨"A", 1, 2, "", true, 5⟩] 0 "A" 30 40 "" 1 1 ∧
    (acceptedResult [⟨"A", 1, 2, "", true, 5⟩] 0 "A" 30 40 "" 1 1).devices =
      [⟨"A", 30, 40, "", true, 1⟩] :=
  ⟨(acceptance_pure_inequality [⟨"A", 1, 2, "", true, 5⟩]
      ⟨some "A", some 30, some 40, none, some 1, some 1⟩ "A" 30 40 1 0
      rfl rfl rfl rfl rfl (by decide) (by decide) (by decide)).1,
   by decide⟩

/-- A device id of 128 characters: one more than the 127 characters the
registry's fixed id buffer can store. -/
def longId : String := String.mk (List.replicate 128 'a')

set_option maxRecDepth 40000 in
/-- C1 counterexample: for a deviceId of 128 characters the registry stores
a truncated id that never matches the sender again, so re-delivering the
same qos=1 (deviceId, sequence) record is accepted afresh: two DeviceState
mutations and two alert-engine evaluations in total, not one. -/
theorem duplicate_long_id_cex :
    (processPacket [] ⟨some longId, some 25, some 50, none, some 0, some 1⟩).storeCount +
      (processPacket
        (processPacket [] ⟨some longId, some 25, some 50, none, some 0, some 1⟩).devices
        ⟨some longId, some 25, some 50, none, some 0, some 1⟩).storeCount = 2 ∧
    (processPacket [] ⟨some longId, some 25, some 50, none, some 0, some 1⟩).alertEvals +
      (processPacket
        (processPacket [] ⟨some longId, some 25, some 50, none, some 0, some 1⟩).devices
        ⟨some longId, some 25, some 50, none, some 0, some 1⟩).alertEvals = 2 ∧
    (processPacket
      (processPacket [] ⟨some longId, some 25, some 50, none, some 0, some 1⟩).devices
      ⟨some longId, some 25, some 50, none, some 0, some 1⟩).outcome = .accepted := by
  decide

/-- C1 (amended): for a deviceId of at most 127 characters (so that the
registry's id buffer stores it intact), delivering the same qos=1
(deviceId, sequence) record twice, the first delivery being accepted,
results in exactly one DeviceState mutation and one alert-engine evaluation
in total but two ACK emissions: the redelivery takes the duplicate branch,
leaves the registry unchanged, emits no alerts and re-sends the ACK. -/
theorem duplicate_suppression_idempotent (devs : List Device) (m : Msg)
    (id : String) (t h : ℚ)
    (hid : m.id = some id) (hlen : id.length ≤ 127)
    (ht : m.temperature = some t) (hh : m.relativeHumidity = some h)
    (hq : m.qos = some 1)
    (hacc : (processPacket devs m).outcome = .accepted) :
    (processPacket (processPacket devs m).devices m).outcome = .duplicate ∧
    (processPacket (processPacket devs m).devices m).devices =
      (processPacket devs m).devices ∧
    (processPacket devs m).storeCount +
      (processPacket (processPacket devs m).devices m).storeCount = 1 ∧
    (processPacket devs m).alertEvals +
      (processPacket (processPacket devs m).devices m).alertEvals = 1 ∧
    (processPacket devs m).acks.length +
      (processPacket (processPacket devs m).devices m).acks.length = 2 ∧
    (processPacket (processPacket devs m).devices m).alerts = [] := by
  obtain ⟨devs1, i, hao, hlt, heq, hns, -⟩ :=
    processPacket_accepted_inv devs m id t h hid ht hh hacc
  have hqos1 : m.qos.getD 0 = 1 := by rw [hq]; rfl
  have hsid :
      (applySeq (storeReading (devs1.getD i (blankDevice id)) t h
        (m.dateObserved.getD "")) (m.qos.getD 0) (extractSeq m.seq)).id = id := by
    have hbase := add_or_get_stored_id (blankDevice id) hao
      (takeChars_of_length_le id 127 hlen)
    simp only [applySeq, storeReading, hqos1, if_pos]
    simpa using hbase
  have hseq_ne : extractSeq m.seq ≠ -1 := fun hc => hns ⟨hqos1, hc⟩
  have hfind2 := find_after_add hao hsid
  have hdevs2 :
      (processPacket devs m).devices =
        devs1.set i
          (applySeq (storeReading (devs1.getD i (blankDevice id)) t h
            (m.dateObserved.getD "")) (m.qos.getD 0) (extractSeq m.seq)) := by
    rw [heq]
    simp [acceptedResult]
  have hsecond :
      processPacket (processPacket devs m).devices m =
        ⟨(processPacket devs m).devices, [(id, extractSeq m.seq)], 0, 0, [],
          .duplicate⟩ := by
    rw [hdevs2]
    simp only [processPacket, hid, ht, hh, add_or_get_device, hfind2]
    rw [getD_set_self _ (blankDevice id) hlt]
    rw [if_neg (fun hc => hseq_ne hc.2)]
    rw [if_pos ⟨hqos1, by simp [applySeq, hqos1]⟩]
  refine ⟨by rw [hsecond], by rw [hsecond], ?_, ?_, ?_, by rw [hsecond]⟩
  · rw [hsecond, heq]
    simp [acceptedResult]
  · rw [hsecond, heq]
    simp [acceptedResult]
  · rw [hsecond, heq]
    simp [acceptedResult, ackList, hqos1]

/-- C1 witness: the amended duplicate-suppression statement at a concrete
short-id record delivered twice from an empty registry. -/
theorem duplicate_suppression_idempotent_witness :
    (processPacket
      (processPacket [] ⟨some "A", some 25, some 50, none, some 0, some 1⟩).devices
      ⟨some "A", some 25, some 50, none, some 0, some 1⟩).outcome = .duplicate ∧
    (processPacket
      (processPacket [] ⟨some "A", some 25, some 50, none, some 0, some 1⟩).devices
      ⟨some "A", some 25, some 50, none, some 0, some 1⟩).devices =
      (processPacket [] ⟨some "A", some 25, some 50, none, some 0, some 1⟩).devices ∧
    (processPacket [] ⟨some "A", some 25, some 50, none, some 0, some 1⟩).storeCount +
      (processPacket
        (processPacket [] ⟨some "A", some 25, some 50, none, some 0, some 1⟩).devices
        ⟨some "A", some 25, some 50, none, some 0, some 1⟩).storeCount = 1 ∧
    (processPacket [] ⟨some "A", some 25, some 50, none, some 0, some 1⟩).alertEvals +
      (processPacket
        (processPacket [] ⟨some "A", some 25, some 50, none, some 0, some 1⟩).devices
        ⟨some "A", some 25, some 50, none, some 0, some 1⟩).alertEvals = 1 ∧
    (processPacket [] ⟨some "A", some 25, some 50, none, some 0, some 1⟩).acks.length +
      (processPacket
        (processPacket [] ⟨some "A", some 25, some 50, none, some 0, some 1⟩).devices
        ⟨some "A", some 25, some 50, none, some 0, some 1⟩).acks.length = 2 ∧
    (processPacket
      (processPacket [] ⟨some "A", some 25, some 50, none, some 0, some 1⟩).devices
      ⟨some "A", some 25, some 50, none, some 0, some 1⟩).alerts = [] :=
  duplicate_suppression_idempotent [] ⟨some "A", some 25, some 50, none, some 0, some 1⟩
    "A" 25 50 rfl (by decide) rfl rfl rfl (by decide)

/-- Alert-shape discriminators. -/
def isTempRange : Alert → Bool
  | .tempRange _ _ => true
  | _ => false

def isHumRange : Alert → Bool
  | .humRange _ _ => true
  | _ => false

def isDifferential : Alert → Bool
  | .differential _ _ _ _ => true
  | _ => false

/-- Spec-side qualification (§4.6) for a differential alert against a
record with readings (t, h) from device `id`: another registry entry whose
temperature delta or humidity delta meets its threshold. -/
def diffQualifiesSpec (id : String) (t h : ℚ) (other : Device) : Bool :=
  !(other.id == id) &&
  (decide (TEMP_DIFF_THRESHOLD ≤ fabs (t - other.temperature)) ||
   decide (HUM_DIFF_THRESHOLD ≤ fabs (h - other.humidity)))

theorem mem_differentialAlerts {devs : List Device} {dev : Device} {a : Alert}
    (ha : a ∈ differentialAlerts devs dev) :
    ∃ other ∈ devs, other.id ≠ dev.id ∧
      (TEMP_DIFF_THRESHOLD ≤ fabs (dev.temperature - other.temperature) ∨
       HUM_DIFF_THRESHOLD ≤ fabs (dev.humidity - other.humidity)) ∧
      a = Alert.differential dev.id other.id
        (fabs (dev.temperature - other.temperature))
        (fabs (dev.humidity - other.humidity)) := by
  simp only [differentialAlerts, List.mem_filterMap] at ha
  obtain ⟨other, ho, hf⟩ := ha
  by_cases hido : other.id = dev.id
  · rw [if_pos hido] at hf
    exact absurd hf (by simp)
  · rw [if_neg hido] at hf
    split at hf
    · rename_i hcond
      exact ⟨other, ho, hido, hcond, (Option.some.inj hf).symm⟩
    · exact absurd hf (by simp)

theorem differentialAlerts_shape {devs : List Device} {dev : Device} {a : Alert}
    (ha : a ∈ differentialAlerts devs dev) : isDifferential a = true := by
  obtain ⟨other, -, -, -, rfl⟩ := mem_differentialAlerts ha
  rfl

theorem differentialAlerts_countP (devs : List Device) (dev : Device) :
    (differentialAlerts devs dev).countP isDifferential =
      devs.countP (diffQualifiesSpec dev.id dev.temperature dev.humidity) := by
  induction devs with
  | nil => rfl
  | cons o rest ih =>
    simp only [differentialAlerts] at ih ⊢
    rw [List.filterMap_cons]
    by_cases h1 : o.id = dev.id
    · rw [if_pos h1]
      simp [List.countP_cons, diffQualifiesSpec, h1, ih]
    · rw [if_neg h1]
      by_cases h2 : TEMP_DIFF_THRESHOLD ≤ fabs (dev.temperature - o.temperature) ∨
          HUM_DIFF_THRESHOLD ≤ fabs (dev.humidity - o.humidity)
      · rw [if_pos h2]
        simp [List.countP_cons, diffQualifiesSpec, isDifferential, h1, h2, ih]
      · rw [if_neg h2]
        obtain ⟨h2a, h2b⟩ := not_or.mp h2
        simp [List.countP_cons, diffQualifiesSpec, h1, h2a, h2b, ih]

theorem rangeAlerts_countP_temp (id : String) (t h : ℚ) :
    (rangeAlerts id t h).countP isTempRange =
      if t < TEMP_MIN ∨ TEMP_MAX < t then 1 else 0 := by
  unfold rangeAlerts
  split <;> split <;> simp [List.countP_cons, List.countP_append, isTempRange]

theorem rangeAlerts_countP_hum (id : String) (t h : ℚ) :
    (rangeAlerts id t h).countP isHumRange =
      if h < HUM_MIN ∨ HUM_MAX < h then 1 else 0 := by
  unfold rangeAlerts
  split <;> split <;> simp [List.countP_cons, List.countP_append, isHumRange]

theorem rangeAlerts_countP_diff (id : String) (t h : ℚ) :
    (rangeAlerts id t h).countP isDifferential = 0 := by
  unfold rangeAlerts
  split <;> split <;> simp [List.countP_cons, List.countP_append, isDifferential]

theorem rangeAlerts_shape {id : String} {t h : ℚ} {a : Alert}
    (ha : a ∈ rangeAlerts id t h) : isDifferential a = false := by
  unfold rangeAlerts at ha
  split at ha <;> split at ha <;> simp at ha <;>
    first
      | (rcases ha with h1 | h1 <;> subst h1 <;> rfl)
      | (subst ha; rfl)

theorem differentialAlerts_countP_temp (devs : List Device) (dev : Device) :
    (differentialAlerts devs dev).countP isTempRange = 0 := by
  rw [List.countP_eq_zero]
  intro a ha
  obtain ⟨other, -, -, -, rfl⟩ := mem_differentialAlerts ha
  simp [isTempRange]

theorem differentialAlerts_countP_hum (devs : List Device) (dev : Device) :
    (differentialAlerts devs dev).countP isHumRange = 0 := by
  rw [List.countP_eq_zero]
  intro a ha
  obtain ⟨other, -, -, -, rfl⟩ := mem_differentialAlerts ha
  simp [isHumRange]

theorem acceptedResult_alerts (devs1 : List Device) (i : Nat) (id : String)
    (t h : ℚ) (date : String) (qos seq : Int) :
    (acceptedResult devs1 i id t h date qos seq).alerts =
      rangeAlerts id t h ++
        differentialAlerts
          (devs1.set i (applySeq (storeReading (devs1.getD i (blankDevice id)) t h date) qos seq))
          (applySeq (storeReading (devs1.getD i (blankDevice id)) t h date) qos seq) :=
  rfl

theorem applySeq_temperature (dev : Device) (qos seq : Int) :
    (applySeq dev qos seq).temperature = dev.temperature := by
  unfold applySeq
  split <;> rfl

theorem applySeq_humidity (dev : Device) (qos seq : Int) :
    (applySeq dev qos seq).humidity = dev.humidity := by
  unfold applySeq
  split <;> rfl

theorem applySeq_id (dev : Device) (qos seq : Int) :
    (applySeq dev qos seq).id = dev.id := by
  unfold applySeq
  split <;> rfl

/-- C6: range alerting uses closed bounds with strict-inequality violation.
For every accepted record the number of temperature OutOfRange alerts is 1
exactly when the temperature lies strictly outside [TEMP_MIN, TEMP_MAX]
(else 0), and likewise per metric for humidity; concretely, a temperature
of TEMP_MAX + 0.01 yields exactly the one temperature alert and a
temperature of exactly TEMP_MAX yields no alert at all. -/
theorem range_alert_characterization :
    (∀ devs m id t h, m.id = some id → m.temperature = some t →
      m.relativeHumidity = some h →
      (processPacket devs m).outcome = .accepted →
      ((processPacket devs m).alerts.countP isTempRange =
        if t < TEMP_MIN ∨ TEMP_MAX < t then 1 else 0) ∧
      ((processPacket devs m).alerts.countP isHumRange =
        if h < HUM_MIN ∨ HUM_MAX < h then 1 else 0)) ∧
    (processPacket []
        ⟨some "A", some (TEMP_MAX + 1/100), some 50, none, none, some 0⟩).alerts =
      [Alert.tempRange "A" (TEMP_MAX + 1/100)] ∧
    (processPacket []
        ⟨some "A", some TEMP_MAX, some 50, none, none, some 0⟩).alerts = [] := by
  refine ⟨?_, ?_, ?_⟩
  · intro devs m id t h hid ht hh hacc
    obtain ⟨devs1, i, -, -, heq, -, -⟩ :=
      processPacket_accepted_inv devs m id t h hid ht hh hacc
    rw [heq, acceptedResult_alerts]
    constructor
    · rw [List.countP_append, rangeAlerts_countP_temp,
        differentialAlerts_countP_temp, Nat.add_zero]
    · rw [List.countP_append, rangeAlerts_countP_hum,
        differentialAlerts_countP_hum, Nat.add_zero]
  · norm_num [processPacket, add_or_get_device, find_device_by_id, MAX_DEVICES,
      extractSeq, acceptedResult, applySeq, storeReading, blankDevice, takeChars,
      rangeAlerts, differentialAlerts, fabs, ackList, TEMP_MIN, TEMP_MAX,
      HUM_MIN, HUM_MAX, TEMP_DIFF_THRESHOLD, HUM_DIFF_THRESHOLD]
  · norm_num [processPacket, add_or_get_device, find_device_by_id, MAX_DEVICES,
      extractSeq, acceptedResult, applySeq, storeReading, blankDevice, takeChars,
      rangeAlerts, differentialAlerts, fabs, ackList, TEMP_MIN, TEMP_MAX,
      HUM_MIN, HUM_MAX, TEMP_DIFF_THRESHOLD, HUM_DIFF_THRESHOLD]

/-- C6 witness: the per-metric count statement applied at the concrete
TEMP_MAX + 0.01 record accepted from an empty registry. -/
theorem range_alert_characterization_witness :
    (processPacket []
        ⟨some "A", some (TEMP_MAX + 1/100), some 50, none, none, some 0⟩).alerts.countP
        isTempRange =
      (if TEMP_MAX + 1/100 < TEMP_MIN ∨ TEMP_MAX < TEMP_MAX + 1/100 then 1 else 0) ∧
    (processPacket []
        ⟨some "A", some (TEMP_MAX + 1/100), some 50, none, none, some 0⟩).alerts.countP
        isHumRange =
      (if (50 : ℚ) < HUM_MIN ∨ HUM_MAX < (50 : ℚ) then 1 else 0) :=
  range_alert_characterization.1 []
    ⟨some "A", some (TEMP_MAX + 1/100), some 50, none, none, some 0⟩
    "A" (TEMP_MAX + 1/100) 50 rfl rfl rfl (by decide)

/-- C5: for every accepted record (with a deviceId that fits the registry's
127-character id field), the differential sweep emits exactly one alert per
other registry entry whose temperature delta meets 2.0 or humidity delta
meets 5.0 (count equality), every differential alert names such an entry
with both deltas (membership characterization); concretely, readings 20.0
against a device at 22.5 emit exactly one Differential alert with
temperature delta 2.5, and against a device at 21.0 emit none. -/
theorem differential_alert_characterization :
    (∀ devs m id t h, m.id = some id → id.length ≤ 127 →
      m.temperature = some t → m.relativeHumidity = some h →
      (processPacket devs m).outcome = .accepted →
      ((processPacket devs m).alerts.countP isDifferential =
        (processPacket devs m).devices.countP (diffQualifiesSpec id t h)) ∧
      (∀ a ∈ (processPacket devs m).alerts, isDifferential a = true →
        ∃ other ∈ (processPacket devs m).devices, other.id ≠ id ∧
          (TEMP_DIFF_THRESHOLD ≤ fabs (t - other.temperature) ∨
           HUM_DIFF_THRESHOLD ≤ fabs (h - other.humidity)) ∧
          a = Alert.differential id other.id (fabs (t - other.temperature))
            (fabs (h - other.humidity)))) ∧
    (processPacket [⟨"B", 45/2, 50, "", false, -1⟩]
        ⟨some "A", some 20, some 50, none, none, some 0⟩).alerts =
      [Alert.differential "A" "B" (5/2) 0] ∧
    (processPacket [⟨"B", 21, 50, "", false, -1⟩]
        ⟨some "A", some 20, some 50, none, none, some 0⟩).alerts = [] := by
  have hA : takeChars "A" 127 = "A" := by decide
  refine ⟨?_, ?_, ?_⟩
  · intro devs m id t h hid hlen ht hh hacc
    obtain ⟨devs1, i, hao, hlt, heq, -, -⟩ :=
      processPacket_accepted_inv devs m id t h hid ht hh hacc
    have hlen2 := takeChars_of_length_le id 127 hlen
    have hsid :
        (applySeq (storeReading (devs1.getD i (blankDevice id)) t h
          (m.dateObserved.getD "")) (m.qos.getD 0) (extractSeq m.seq)).id = id := by
      rw [applySeq_id]
      have := add_or_get_stored_id (blankDevice id) hao hlen2
      simpa [storeReading] using this
    have hst :
        (applySeq (storeReading (devs1.getD i (blankDevice id)) t h
          (m.dateObserved.getD "")) (m.qos.getD 0) (extractSeq m.seq)).temperature = t := by
      rw [applySeq_temperature]
      simp [storeReading]
    have hsh :
        (applySeq (storeReading (devs1.getD i (blankDevice id)) t h
          (m.dateObserved.getD "")) (m.qos.getD 0) (extractSeq m.seq)).humidity = h := by
      rw [applySeq_humidity]
      simp [storeReading]
    constructor
    · rw [heq, acceptedResult_alerts]
      rw [List.countP_append, rangeAlerts_countP_diff, differentialAlerts_countP]
      rw [hsid, hst, hsh]
      simp [acceptedResult]
    · intro a ha hdiff
      rw [heq, acceptedResult_alerts] at ha
      rcases List.mem_append.mp ha with hr | hd
      · rw [rangeAlerts_shape hr] at hdiff
        exact absurd hdiff (by simp)
      · obtain ⟨other, ho, hne, hcond, haeq⟩ := mem_differentialAlerts hd
        rw [hsid] at hne
        rw [hst, hsh] at hcond
        rw [hsid, hst, hsh] at haeq
        refine ⟨other, ?_, hne, hcond, haeq⟩
        rw [heq]
        simpa [acceptedResult] using ho
  · have hBA : ¬(("B" : String) = "A") := by decide
    norm_num [processPacket, add_or_get_device, find_device_by_id, MAX_DEVICES,
      extractSeq, acceptedResult, applySeq, storeReading, blankDevice, hA, hBA,
      rangeAlerts, differentialAlerts, fabs, ackList, TEMP_MIN, TEMP_MAX,
      HUM_MIN, HUM_MAX, TEMP_DIFF_THRESHOLD, HUM_DIFF_THRESHOLD,
      List.filterMap_cons]
  · have hBA : ¬(("B" : String) = "A") := by decide
    norm_num [processPacket, add_or_get_device, find_device_by_id, MAX_DEVICES,
      extractSeq, acceptedResult, applySeq, storeReading, blankDevice, hA, hBA,
      rangeAlerts, differentialAlerts, fabs, ackList, TEMP_MIN, TEMP_MAX,
      HUM_MIN, HUM_MAX, TEMP_DIFF_THRESHOLD, HUM_DIFF_THRESHOLD,
      List.filterMap_cons]

/-- C5 witness: the count and membership statement applied to the concrete
20.0-versus-22.5 scenario. -/
theorem differential_alert_witness :
    (processPacket [⟨"B", 45/2, 50, "", false, -1⟩]
        ⟨some "A", some 20, some 50, none, none, some 0⟩).alerts.countP
        isDifferential =
      (processPacket [⟨"B", 45/2, 50, "", false, -1⟩]
        ⟨some "A", some 20, some 50, none, none, some 0⟩).devices.countP
        (diffQualifiesSpec "A" 20 50) :=
  (differential_alert_characterization.1 [⟨"B", 45/2, 50, "", false, -1⟩]
    ⟨some "A", some 20, some 50, none, none, some 0⟩ "A" 20 50
    rfl (by decide) rfl rfl (by decide)).1
